import Mathlib

/-!
Shallow embedding of the kinematic character-controller core
(`move_and_slide.rs`, `character.rs`, `floor.rs`, `movement.rs`) over real
numbers.  `f32` values are modelled as `ℝ`; the spatial-query backend
(`SpatialQuery::cast_shape`) is modelled as an oracle function passed in as a
parameter.  The collider, rotation and query filter are opaque to all of the
verified code, so they are folded into the oracle.
-/

open scoped Classical

noncomputable section

namespace KCC

/-- 3D vector with real components, modelling `glam`/`bevy` `Vec3`. -/
@[ext]
structure Vec3 where
  x : ℝ
  y : ℝ
  z : ℝ

instance : Zero Vec3 := ⟨⟨0, 0, 0⟩⟩

instance : Add Vec3 := ⟨fun a b => ⟨a.x + b.x, a.y + b.y, a.z + b.z⟩⟩

instance : Neg Vec3 := ⟨fun a => ⟨-a.x, -a.y, -a.z⟩⟩

instance : Sub Vec3 := ⟨fun a b => ⟨a.x - b.x, a.y - b.y, a.z - b.z⟩⟩

instance : SMul ℝ Vec3 := ⟨fun c v => ⟨c * v.x, c * v.y, c * v.z⟩⟩

@[simp] theorem Vec3.zero_x : (0 : Vec3).x = 0 := rfl

@[simp] theorem Vec3.zero_y : (0 : Vec3).y = 0 := rfl

@[simp] theorem Vec3.zero_z : (0 : Vec3).z = 0 := rfl

@[simp] theorem Vec3.add_x (a b : Vec3) : (a + b).x = a.x + b.x := rfl

@[simp] theorem Vec3.add_y (a b : Vec3) : (a + b).y = a.y + b.y := rfl

@[simp] theorem Vec3.add_z (a b : Vec3) : (a + b).z = a.z + b.z := rfl

@[simp] theorem Vec3.sub_x (a b : Vec3) : (a - b).x = a.x - b.x := rfl

@[simp] theorem Vec3.sub_y (a b : Vec3) : (a - b).y = a.y - b.y := rfl

@[simp] theorem Vec3.sub_z (a b : Vec3) : (a - b).z = a.z - b.z := rfl

@[simp] theorem Vec3.neg_x (a : Vec3) : (-a).x = -a.x := rfl

@[simp] theorem Vec3.neg_y (a : Vec3) : (-a).y = -a.y := rfl

@[simp] theorem Vec3.neg_z (a : Vec3) : (-a).z = -a.z := rfl

@[simp] theorem Vec3.smul_x (c : ℝ) (v : Vec3) : (c • v).x = c * v.x := rfl

@[simp] theorem Vec3.smul_y (c : ℝ) (v : Vec3) : (c • v).y = c * v.y := rfl

@[simp] theorem Vec3.smul_z (c : ℝ) (v : Vec3) : (c • v).z = c * v.z := rfl

@[simp] theorem Vec3.mk_eq_zero (a b c : ℝ) :
    (Vec3.mk a b c = 0) ↔ a = 0 ∧ b = 0 ∧ c = 0 := by
  constructor
  · intro h
    refine ⟨congrArg Vec3.x h, congrArg Vec3.y h, congrArg Vec3.z h⟩
  · rintro ⟨ha, hb, hc⟩
    ext <;> simp [ha, hb, hc]

theorem Vec3.one_smul (v : Vec3) : (1 : ℝ) • v = v := by
  ext <;> simp

theorem Vec3.smul_smul (c d : ℝ) (v : Vec3) : c • d • v = (c * d) • v := by
  ext <;> simp <;> ring

/-- Dot product (`Vec3::dot`). -/
def dot (a b : Vec3) : ℝ := a.x * b.x + a.y * b.y + a.z * b.z

/-- Cross product (`Vec3::cross`). -/
def cross (a b : Vec3) : Vec3 :=
  ⟨a.y * b.z - a.z * b.y, a.z * b.x - a.x * b.z, a.x * b.y - a.y * b.x⟩

/-- Squared length (`Vec3::length_squared`). -/
def lengthSq (v : Vec3) : ℝ := dot v v

/-- Length (`Vec3::length`). -/
def length (v : Vec3) : ℝ := Real.sqrt (lengthSq v)

/-- Normalization (`Vec3::normalize`): multiply by the reciprocal length. -/
def normalize (v : Vec3) : Vec3 := (1 / length v) • v

/-- `Vec3::normalize_or_zero`: zero input normalizes to zero. -/
def normalizeOrZero (v : Vec3) : Vec3 := if v = 0 then 0 else normalize v

/-- `Vec3::reject_from_normalized`: `self - other * self.dot(other)`,
`other` assumed to be a unit vector. -/
def rejectFromNormalized (v n : Vec3) : Vec3 := v - dot v n • n

/-- `Vec3::project_onto_normalized`: `other * self.dot(other)`. -/
def projectOntoNormalized (v d : Vec3) : Vec3 := dot v d • d

theorem lengthSq_nonneg (v : Vec3) : 0 ≤ lengthSq v := by
  have hx := mul_self_nonneg v.x
  have hy := mul_self_nonneg v.y
  have hz := mul_self_nonneg v.z
  simp only [lengthSq, dot]
  linarith

theorem lengthSq_eq_zero {v : Vec3} : lengthSq v = 0 ↔ v = 0 := by
  constructor
  · intro h
    have hx := mul_self_nonneg v.x
    have hy := mul_self_nonneg v.y
    have hz := mul_self_nonneg v.z
    simp only [lengthSq, dot] at h
    have hx0 : v.x * v.x = 0 := by linarith
    have hy0 : v.y * v.y = 0 := by linarith
    have hz0 : v.z * v.z = 0 := by linarith
    ext
    · exact mul_self_eq_zero.mp hx0
    · exact mul_self_eq_zero.mp hy0
    · exact mul_self_eq_zero.mp hz0
  · intro h
    subst h
    simp [lengthSq, dot]

theorem lengthSq_pos {v : Vec3} (h : v ≠ 0) : 0 < lengthSq v := by
  rcases lt_or_eq_of_le (lengthSq_nonneg v) with h' | h'
  · exact h'
  · exact absurd (lengthSq_eq_zero.mp h'.symm) h

theorem length_pos {v : Vec3} (h : v ≠ 0) : 0 < length v :=
  Real.sqrt_pos.mpr (lengthSq_pos h)

theorem length_ne_zero {v : Vec3} (h : v ≠ 0) : length v ≠ 0 :=
  ne_of_gt (length_pos h)

theorem length_of_lengthSq_one {v : Vec3} (h : lengthSq v = 1) : length v = 1 := by
  simp [length, h]

theorem lengthSq_smul (c : ℝ) (v : Vec3) : lengthSq (c • v) = c * c * lengthSq v := by
  simp only [lengthSq, dot, Vec3.smul_x, Vec3.smul_y, Vec3.smul_z]
  ring

theorem lengthSq_neg (v : Vec3) : lengthSq (-v) = lengthSq v := by
  simp only [lengthSq, dot, Vec3.neg_x, Vec3.neg_y, Vec3.neg_z]
  ring

theorem lengthSq_normalize {v : Vec3} (h : v ≠ 0) : lengthSq (normalize v) = 1 := by
  have hpos := lengthSq_pos h
  have hlen := length_ne_zero h
  rw [normalize, lengthSq_smul]
  have hsq : length v * length v = lengthSq v := by
    rw [length]
    exact Real.mul_self_sqrt (le_of_lt hpos)
  field_simp
  rw [hsq]

theorem normalize_of_length_one {v : Vec3} (h : length v = 1) : normalize v = v := by
  rw [normalize, h]
  norm_num
  exact Vec3.one_smul v

theorem normalize_smul_pos {c : ℝ} (hc : 0 < c) (v : Vec3) (hv : v ≠ 0) :
    normalize (c • v) = normalize v := by
  have h1 : length (c • v) = c * length v := by
    rw [length, lengthSq_smul, length]
    rw [show c * c * lengthSq v = c ^ 2 * lengthSq v by ring]
    rw [Real.sqrt_mul (sq_nonneg c)]
    rw [Real.sqrt_sq (le_of_lt hc)]
  rw [normalize, normalize, h1, Vec3.smul_smul]
  congr 1
  have hc' : c ≠ 0 := ne_of_gt hc
  have hl' : length v ≠ 0 := length_ne_zero hv
  field_simp

/-- `bevy` `Dir3`: a unit vector. -/
def Dir3 := { v : Vec3 // lengthSq v = 1 }

instance : Neg Dir3 := ⟨fun d => ⟨-d.val, by rw [lengthSq_neg]; exact d.property⟩⟩

@[simp] theorem Dir3.neg_val (d : Dir3) : (-d).val = -d.val := rfl

/-- `Dir3::new`: fails on a degenerate (zero; in `f32` also non-finite/NaN)
vector, otherwise normalizes. -/
def Dir3.new (v : Vec3) : Option Dir3 :=
  if h : v = 0 then none else some ⟨normalize v, lengthSq_normalize h⟩

/-- `Dir3::new_and_length`: the normalized direction paired with the input's
length; fails on a degenerate vector. -/
def Dir3.newAndLength (v : Vec3) : Option (Dir3 × ℝ) :=
  if h : v = 0 then none else some (⟨normalize v, lengthSq_normalize h⟩, length v)

@[simp] theorem Dir3.new_zero : Dir3.new 0 = none := by
  rw [Dir3.new, dif_pos rfl]

@[simp] theorem Dir3.newAndLength_zero : Dir3.newAndLength 0 = none := by
  rw [Dir3.newAndLength, dif_pos rfl]

theorem Dir3.new_unit {v : Vec3} (h : lengthSq v = 1) :
    Dir3.new v = some ⟨v, h⟩ := by
  have hv : v ≠ 0 := by
    intro h0
    rw [h0] at h
    simp [lengthSq, dot] at h
  rw [Dir3.new, dif_neg hv]
  congr 1
  exact Subtype.ext (normalize_of_length_one (length_of_lengthSq_one h))

theorem Dir3.newAndLength_smul_unit {c : ℝ} (hc : 0 < c) {v : Vec3}
    (h : lengthSq v = 1) : Dir3.newAndLength (c • v) = some (⟨v, h⟩, c) := by
  have hv : v ≠ 0 := by
    intro h0
    rw [h0] at h
    simp [lengthSq, dot] at h
  have hcv : c • v ≠ 0 := by
    intro h0
    apply hv
    have : (1 / c) • c • v = (1 / c) • (0 : Vec3) := by rw [h0]
    rw [Vec3.smul_smul] at this
    rw [show (1 / c) * c = 1 by field_simp] at this
    rw [Vec3.one_smul] at this
    rw [this]
    ext <;> simp
  rw [Dir3.newAndLength, dif_neg hcv]
  have hnorm : normalize (c • v) = v := by
    rw [normalize_smul_pos hc v hv]
    exact normalize_of_length_one (length_of_lengthSq_one h)
  have hlen : length (c • v) = c := by
    rw [length, lengthSq_smul, h]
    rw [show c * c * 1 = c ^ 2 by ring]
    exact Real.sqrt_sq (le_of_lt hc)
  congr 1
  rw [Prod.ext_iff]
  exact ⟨Subtype.ext hnorm, hlen⟩

/-- The world X axis as a vector. -/
def exV : Vec3 := ⟨1, 0, 0⟩

/-- The world Y axis as a vector (`Vec3::Y`). -/
def eyV : Vec3 := ⟨0, 1, 0⟩

/-- The world Z axis as a vector. -/
def ezV : Vec3 := ⟨0, 0, 1⟩

theorem exV_unit : lengthSq exV = 1 := by simp [lengthSq, dot, exV]

theorem eyV_unit : lengthSq eyV = 1 := by simp [lengthSq, dot, eyV]

theorem ezV_unit : lengthSq ezV = 1 := by simp [lengthSq, dot, ezV]

/-- The world X axis as a direction. -/
def dirX : Dir3 := ⟨exV, exV_unit⟩

/-- The world Y axis as a direction (`Dir3::Y`). -/
def dirY : Dir3 := ⟨eyV, eyV_unit⟩

/-- The world Z axis as a direction. -/
def dirZ : Dir3 := ⟨ezV, ezV_unit⟩

@[simp] theorem dirX_val : dirX.val = exV := rfl

@[simp] theorem dirY_val : dirY.val = eyV := rfl

@[simp] theorem dirZ_val : dirZ.val = ezV := rfl

/-! ## Spatial-query interface (`avian3d`)

`ShapeHitData` keeps the fields the verified code reads: `distance`,
`normal1` and `entity`.  `SpatialQuery::cast_shape` is modelled as an oracle
`CastShape` taking the cast origin, direction and `ShapeCastConfig`; the
collider, rotation and filter are opaque and folded into the oracle. -/

/-- The fields of `avian3d`'s `ShapeHitData` that the controller reads. -/
structure ShapeHitData where
  distance : ℝ
  normal1 : Vec3
  entity : Nat

/-- The fields of `avian3d`'s `ShapeCastConfig` that the controller sets:
`max_distance`, `target_distance` and `ignore_origin_penetration`
(defaults `0`, `0`, `false`). -/
structure ShapeCastConfig where
  maxDistance : ℝ
  targetDistance : ℝ := 0
  ignoreOriginPenetration : Bool := false

/-- Oracle model of `SpatialQuery::cast_shape` applied to a fixed collider,
rotation and filter: origin, direction and config determine the optional hit. -/
def CastShape : Type := Vec3 → Dir3 → ShapeCastConfig → Option ShapeHitData

/-! ## `move_and_slide.rs` -/

/-- `SIMILARITY_THRESHOLD` in `move_and_slide.rs`. -/
def SIMILARITY_THRESHOLD : ℝ := 0.999

/-- `sweep_check`: one shape-cast extended by `epsilon` beyond `max_distance`,
with `target_distance = epsilon` and origin penetration ignored; on a hit it
returns `hit.distance - epsilon` together with the hit. -/
def sweepCheck (cast : CastShape) (epsilon : ℝ) (origin : Vec3) (direction : Dir3)
    (maxDistance : ℝ) : Option (ℝ × ShapeHitData) :=
  match cast origin direction
      { maxDistance := maxDistance + epsilon
        targetDistance := epsilon
        ignoreOriginPenetration := true } with
  | none => none
  | some hit => some (hit.distance - epsilon, hit)

/-- `MoveAndSlideConfig`. -/
structure MoveAndSlideConfig where
  maxSubsteps : Nat
  epsilon : ℝ

/-- `PlaneType`: classification of the accumulated slide planes. -/
inductive PlaneType where
  | plane (normal : Dir3)
  | crease (creaseDir : Dir3) (p1 p2 : Dir3)
  | corner (p1 p2 p3 : Dir3)

/-- `PlaneType::project_motion`: rejection for a plane, projection onto the
crease direction for a crease, zero for a corner. -/
def PlaneType.projectMotion : PlaneType → Vec3 → Vec3
  | .plane normal, motion => rejectFromNormalized motion normal.val
  | .crease creaseDir _ _, motion => projectOntoNormalized motion creaseDir.val
  | .corner _ _ _, _ => 0

/-- `SlidePlanes::plane_type`.  The Rust slice patterns are `&[normal]`,
`&[previous, current]`, `&[.., a, b, c]` (the last three of a list of length
at least three) and `&[]`.  In the two-normal case the source unwraps
`Dir3::new(previous.cross(*current))`, panicking when the cross product is
degenerate; the panic branch is modelled by `none`. -/
def planeType : List Dir3 → Option PlaneType
  | [] => none
  | [normal] => some (.plane normal)
  | [previous, current] =>
    match Dir3.new (cross previous.val current.val) with
    | none => none
    | some creaseDir => some (.crease creaseDir previous current)
  | l₀@(_ :: _ :: _ :: _) =>
    match l₀.reverse with
    | c :: b :: a :: _ => some (.corner a b c)
    | _ => none

/-- `SlidePlanes::insert` on the underlying list: reject (no change) when the
candidate is similar (`dot > 1.0 - 0.01`) to a stored normal, otherwise push
and reclassify.  Returns the classification and the updated list. -/
def insertPlane (planes : List Dir3) (normal : Dir3) : Option PlaneType × List Dir3 :=
  if ∃ n ∈ planes, dot n.val normal.val > 1 - 1 / 100 then
    (none, planes)
  else
    (planeType (planes ++ [normal]), planes ++ [normal])

/-- States of `SlidePlanes` reachable from the empty set by `insert`. -/
inductive ReachablePlanes : List Dir3 → Prop where
  | nil : ReachablePlanes []
  | step {l : List Dir3} (n : Dir3) :
      ReachablePlanes l → ReachablePlanes (insertPlane l n).2

/-- The data handed to the `on_hit` callback (`Slide`). -/
structure Slide where
  hit : ShapeHitData
  plane : PlaneType
  translation : Vec3
  velocity : Vec3
  direction : Dir3
  incomingMotion : ℝ
  remainingMotion : ℝ

/-- The callback's answer (`SlideResult`). -/
structure SlideResult where
  translation : Vec3
  velocity : Vec3
  elapsedTime : ℝ

/-- The mutable state of the `move_and_slide` substep loop. -/
structure MSState where
  translation : Vec3
  velocity : Vec3
  remainingTime : ℝ
  planes : List Dir3

/-- Outcome of one loop iteration: `continue`-to-next, `break`, or the panic
raised by `SlidePlanes::insert` on a degenerate hit normal. -/
inductive StepOut where
  | next (s : MSState)
  | stop (s : MSState)
  | panicked

/-- One iteration of the `move_and_slide` substep loop. -/
def substep (cast : CastShape) (onHit : Slide → SlideResult)
    (config : MoveAndSlideConfig) (originalDirection : Dir3) (s : MSState) :
    StepOut :=
  match Dir3.newAndLength (s.remainingTime • s.velocity) with
  | none => .stop s
  | some (direction, maxDistance) =>
    match sweepCheck cast config.epsilon s.translation direction maxDistance with
    | none =>
      -- No collision, move the full remaining distance
      .stop { s with translation := s.translation + maxDistance • direction.val }
    | some (safeMovement, hit) =>
      let remainingTime := s.remainingTime * (1 - safeMovement / maxDistance)
      let translation := s.translation + safeMovement • direction.val
      match Dir3.new hit.normal1 with
      | none => .panicked
      | some normalDir =>
        match insertPlane s.planes normalDir with
        | (none, planes) =>
          .next { translation := translation, velocity := s.velocity,
                  remainingTime := remainingTime, planes := planes }
        | (some plane, planes) =>
          let slideResult := onHit
            { hit := hit, plane := plane, translation := translation,
              velocity := s.velocity, direction := direction,
              incomingMotion := safeMovement,
              remainingMotion := maxDistance - safeMovement }
          let s' : MSState :=
            { translation := slideResult.translation,
              velocity := slideResult.velocity,
              remainingTime := max (remainingTime - slideResult.elapsedTime) 0,
              planes := planes }
          if dot s'.velocity originalDirection.val ≤ 0 then .stop s' else .next s'

/-- The bounded substep loop of `move_and_slide`; `none` models a panic. -/
def moveLoop (cast : CastShape) (onHit : Slide → SlideResult)
    (config : MoveAndSlideConfig) (originalDirection : Dir3) :
    Nat → MSState → Option MSState
  | 0, s => some s
  | n + 1, s =>
    match substep cast onHit config originalDirection s with
    | .stop s' => some s'
    | .next s' => moveLoop cast onHit config originalDirection n s'
    | .panicked => none

/-- `MoveAndSlideResult`. -/
structure MoveAndSlideResult where
  translation : Vec3
  velocity : Vec3
  remainingTime : ℝ
  plane : Option PlaneType
  appliedMotion : Vec3

/-- `move_and_slide`; `none` models the panic on a degenerate hit normal. -/
def moveAndSlide (cast : CastShape) (onHit : Slide → SlideResult) (origin velocity : Vec3)
    (config : MoveAndSlideConfig) (deltaTime : ℝ) : Option MoveAndSlideResult :=
  match Dir3.new velocity with
  | none =>
    some { translation := origin, velocity := velocity, remainingTime := deltaTime,
           plane := none, appliedMotion := 0 }
  | some originalDirection =>
    match moveLoop cast onHit config originalDirection config.maxSubsteps
        { translation := origin, velocity := velocity, remainingTime := deltaTime,
          planes := [] } with
    | none => none
    | some s =>
      some { translation := s.translation, appliedMotion := s.translation - origin,
             velocity := s.velocity, remainingTime := s.remainingTime,
             plane := planeType s.planes }

/-! ## `character.rs` -/

/-- `Vec3::angle_between` (glam): `acos` of the dot product divided by the
product of the lengths; `Real.arccos` clamps outside `[-1, 1]` exactly as the
clamped `acos` of the source does. -/
def angleBetween (a b : Vec3) : ℝ :=
  Real.arccos (dot a b / Real.sqrt (lengthSq a * lengthSq b))

/-- `EXAMPLE_CHARACTER_RADIUS`. -/
def EXAMPLE_CHARACTER_RADIUS : ℝ := 0.35

/-- `EXAMPLE_WALKABLE_ANGLE` (`PI / 4.0`). -/
def EXAMPLE_WALKABLE_ANGLE : ℝ := Real.pi / 4

/-- `EXAMPLE_STEP_HEIGHT`. -/
def EXAMPLE_STEP_HEIGHT : ℝ := 0.25

/-- `EXAMPLE_GROUND_CHECK_DISTANCE`. -/
def EXAMPLE_GROUND_CHECK_DISTANCE : ℝ := 0.1

/-- `is_walkable`: the slope angle between `up` and `normal` is strictly below
`walkable_angle`. -/
def isWalkable (normal : Vec3) (up : Dir3) (walkableAngle : ℝ) : Prop :=
  angleBetween up.val normal < walkableAngle

/-- `Ground`: the entity stood on and its (unit) surface normal. -/
structure Ground where
  entity : Nat
  normal : Dir3

/-- `Ground::new_if_walkable`: convert the normal (failing on a degenerate
vector), then require `is_walkable`. -/
def Ground.newIfWalkable (entity : Nat) (normal : Vec3) (up : Dir3)
    (walkableAngle : ℝ) : Option Ground :=
  match Dir3.new normal with
  | none => none
  | some normalDir =>
    if ¬ isWalkable normalDir.val up walkableAngle then none
    else some { entity := entity, normal := normalDir }

/-- The `let horizontal_motion = motion.reject_from_normalized(Vec3::Y)`
binding of `try_climb_step`: rejection from the fixed world Y axis. -/
def climbHorizontalMotion (motion : Vec3) : Vec3 :=
  rejectFromNormalized motion eyV

/-- The tail of `try_climb_step` after the forward probe: step forward and
sweep down, then drop onto the found surface. -/
def tryClimbDown (cast : CastShape) (stepUpPos horizontalMotion : Vec3) (up : Dir3)
    (stepUpHeight epsilon : ℝ) : Option (Vec3 × ShapeHitData) :=
  let stepDownPos := stepUpPos + horizontalMotion
  match sweepCheck cast epsilon stepDownPos (-up) stepUpHeight with
  | none => none
  | some (safeDistance, stepDownHit) =>
    some (stepDownPos - safeDistance • up.val, stepDownHit)

/-- `try_climb_step`: raise by `step_up_height` along `up`, sweep forward along
the horizontal (world-Y-rejected) motion — any hit aborts — then sweep down by
`step_up_height` from the advanced raised position and drop onto the hit.
No walkability test is performed on the landing surface. -/
def tryClimbStep (cast : CastShape) (translation motion : Vec3) (up : Dir3)
    (stepUpHeight epsilon : ℝ) : Option (Vec3 × ShapeHitData) :=
  let stepUpPos := translation + stepUpHeight • up.val
  let horizontalMotion := climbHorizontalMotion motion
  match Dir3.new horizontalMotion with
  | some direction =>
    match cast stepUpPos direction { maxDistance := length horizontalMotion } with
    | some _ => none
    | none => tryClimbDown cast stepUpPos horizontalMotion up stepUpHeight epsilon
  | none => tryClimbDown cast stepUpPos horizontalMotion up stepUpHeight epsilon

/-! ## `floor.rs` -/

/-- `Floor`. -/
structure Floor where
  entity : Nat
  normal : Dir3
  distance : ℝ

/-- `Floor::new_if_walkable`: convert the normal (failing on a degenerate
vector), then reject only when the slope angle strictly exceeds
`walkable_angle`. -/
def Floor.newIfWalkable (entity : Nat) (normal : Vec3) (distance : ℝ) (up : Dir3)
    (walkableAngle : ℝ) : Option Floor :=
  match Dir3.new normal with
  | none => none
  | some normalDir =>
    if angleBetween normalDir.val up.val > walkableAngle then none
    else some { entity := entity, normal := normalDir, distance := distance }

/-! ## `movement.rs` -/

/-- `StepUpResult`. -/
structure StepUpResult where
  translation : Vec3
  moveTime : ℝ
  normal : Vec3

/-- The `inward` nudge of `try_step_up_on_hit`:
`EXAMPLE_CHARACTER_RADIUS * (1 - cos EXAMPLE_WALKABLE_ANGLE) + epsilon * PI`. -/
def stepUpInward (epsilon : ℝ) : ℝ :=
  EXAMPLE_CHARACTER_RADIUS * (1 - Real.cos EXAMPLE_WALKABLE_ANGLE) + epsilon * Real.pi

/-- The clamped forward distance of `try_step_up_on_hit`. -/
def stepUpForward (stepForward epsilon : ℝ) : ℝ :=
  max (stepForward - stepUpInward epsilon) 0

/-- The `step_motion` vector handed by `try_step_up_on_hit` to
`try_climb_step`. -/
def stepUpMotion (hitNormal : Vec3) (up direction : Dir3) (stepForward epsilon : ℝ) :
    Vec3 :=
  stepUpForward stepForward epsilon • direction.val -
    stepUpInward epsilon • normalizeOrZero (rejectFromNormalized hitNormal up.val)

/-- `try_step_up_on_hit`: nudge the probe into the wall, call
`try_climb_step` with `EXAMPLE_STEP_HEIGHT + EXAMPLE_GROUND_CHECK_DISTANCE`,
then reject the landing unless it is walkable against
`EXAMPLE_WALKABLE_ANGLE - 1e-4`. -/
def tryStepUpOnHit (cast : CastShape) (translation : Vec3) (up : Dir3)
    (hitNormal : Vec3) (direction : Dir3) (stepForward epsilon deltaTime : ℝ) :
    Option StepUpResult :=
  match tryClimbStep cast translation
      (stepUpMotion hitNormal up direction stepForward epsilon) up
      (EXAMPLE_STEP_HEIGHT + EXAMPLE_GROUND_CHECK_DISTANCE) epsilon with
  | none => none
  | some (stepTranslation, hit) =>
    if ¬ isWalkable hit.normal1 up (EXAMPLE_WALKABLE_ANGLE - 1 / 10000) then none
    else
      some { translation := stepTranslation,
             moveTime := (stepUpForward stepForward epsilon + stepUpInward epsilon) *
               deltaTime,
             normal := hit.normal1 }

/-! ## Shared fixtures and evaluation lemmas -/

/-- An oracle world that is completely empty. -/
def constCastNone : CastShape := fun _ _ _ => none

/-- An oracle world that reports the same hit for every cast. -/
def constCast (hit : ShapeHitData) : CastShape := fun _ _ _ => some hit

/-- A fixture hit at distance `1/5` with a vertical-wall normal `+X`. -/
def flatHit : ShapeHitData := ⟨1 / 5, exV, 0⟩

theorem Vec3.add_zero (a : Vec3) : a + 0 = a := by ext <;> simp

theorem Vec3.zero_smul (v : Vec3) : (0 : ℝ) • v = 0 := by ext <;> simp

theorem Vec3.smul_zero (c : ℝ) : c • (0 : Vec3) = 0 := by ext <;> simp

theorem length_smul_normalize {w : Vec3} (h : w ≠ 0) :
    length w • normalize w = w := by
  rw [normalize, Vec3.smul_smul]
  rw [show length w * (1 / length w) = 1 by field_simp [length_ne_zero h]]
  exact Vec3.one_smul w

theorem angleBetween_orth {a b : Vec3} (h1 : lengthSq a = 1) (h2 : lengthSq b = 1)
    (hd : dot a b = 0) : angleBetween a b = Real.pi / 2 := by
  rw [angleBetween, hd, h1, h2]
  norm_num [Real.arccos_zero]

theorem dot_eyV_exV : dot eyV exV = 0 := by simp [dot, eyV, exV]

theorem dot_exV_eyV : dot exV eyV = 0 := by simp [dot, exV, eyV]

theorem exV_ne_zero : exV ≠ 0 := by simp [exV]

theorem angleBetween_eyV_exV : angleBetween eyV exV = Real.pi / 2 :=
  angleBetween_orth eyV_unit exV_unit dot_eyV_exV

theorem angleBetween_exV_eyV : angleBetween exV eyV = Real.pi / 2 :=
  angleBetween_orth exV_unit eyV_unit dot_exV_eyV

/-! ## Claim C1 — `sweep_check`'s returned safe distance -/

/-- C1 counterexample.  The claim states the safe distance is
`max(hit.distance - epsilon, 0)` and never negative; with a hit at distance
`0` and `epsilon = 1/100` the code returns `0 - 1/100 < 0`, which also differs
from `max(0 - 1/100, 0) = 0`. -/
theorem c1_counterexample :
    sweepCheck (constCast ⟨0, eyV, 0⟩) (1 / 100) 0 dirX 1 =
      some (0 - 1 / 100, ⟨0, eyV, 0⟩) ∧
    (0 : ℝ) - 1 / 100 < 0 ∧ (0 : ℝ) - 1 / 100 ≠ max ((0 : ℝ) - 1 / 100) 0 :=
  ⟨rfl, by norm_num, by norm_num⟩

/-- C1 (amended): for every sweep that reports a hit, `sweep_check` returns a
safe distance equal to `hit.distance - epsilon` exactly; it is not clamped at
zero, so it is negative whenever the hit distance is smaller than epsilon. -/
theorem c1_safe_distance (cast : CastShape) (epsilon : ℝ) (origin : Vec3)
    (direction : Dir3) (maxDistance safe : ℝ) (hit : ShapeHitData)
    (h : sweepCheck cast epsilon origin direction maxDistance = some (safe, hit)) :
    safe = hit.distance - epsilon := by
  rw [sweepCheck] at h
  cases hc : cast origin direction
      { maxDistance := maxDistance + epsilon
        targetDistance := epsilon
        ignoreOriginPenetration := true } with
  | none => rw [hc] at h; exact absurd h (by simp)
  | some hh =>
    rw [hc] at h
    simp only [Option.some.injEq, Prod.mk.injEq] at h
    rw [← h.1, ← h.2]

/-- C1 witness: the amended theorem applied at a concrete hit. -/
theorem c1_witness : (1 : ℝ) - 1 / 100 = (ShapeHitData.mk 1 eyV 0).distance - 1 / 100 :=
  c1_safe_distance (constCast ⟨1, eyV, 0⟩) (1 / 100) 0 dirX 5 (1 - 1 / 100)
    ⟨1, eyV, 0⟩ rfl

/-! ## Claim C9 — degenerate normals fail classification -/

/-- C9: for every up direction and walkable angle, a degenerate (zero) normal
fails ground classification — `Ground::new_if_walkable` and
`Floor::new_if_walkable` return `None` rather than constructing a record
holding the degenerate direction. -/
theorem c9_degenerate_normal (entity : Nat) (up : Dir3) (walkableAngle d : ℝ) :
    Ground.newIfWalkable entity 0 up walkableAngle = none ∧
    Floor.newIfWalkable entity 0 d up walkableAngle = none := by
  constructor
  · rw [Ground.newIfWalkable, Dir3.new_zero]
  · rw [Floor.newIfWalkable, Dir3.new_zero]

/-! ## Claim C3 — strictness of the walkability boundary -/

/-- C3 counterexample.  At an angle exactly equal to `walkable_angle`
(here `π/2`, with the surface normal orthogonal to `up`), `is_walkable`
reports not walkable, yet `Floor::new_if_walkable` still constructs a floor
because its test rejects only on `angle > walkable_angle`. -/
theorem c3_counterexample :
    (Floor.newIfWalkable 0 exV 0 dirY (Real.pi / 2)).isSome = true ∧
    ¬ isWalkable exV dirY (Real.pi / 2) := by
  constructor
  · simp only [Floor.newIfWalkable, Dir3.new_unit exV_unit, dirY_val]
    rw [if_neg]
    · rfl
    · show ¬ angleBetween exV eyV > Real.pi / 2
      rw [angleBetween_exV_eyV]
      exact lt_irrefl _
  · show ¬ angleBetween eyV exV < Real.pi / 2
    rw [angleBetween_eyV_exV]
    exact lt_irrefl _

/-- C3 (amended): `is_walkable` holds iff `angle_between(up, normal) <
walkable_angle`, and `Ground::new_if_walkable` is strict at the boundary
(exactly `walkable_angle` classifies as not walkable), but
`Floor::new_if_walkable` is not: its test rejects only when the angle
strictly exceeds `walkable_angle`, so at the boundary it constructs the
floor. -/
theorem c3_walkability_boundary (n : Vec3) (up : Dir3) (walkableAngle : ℝ)
    (entity : Nat) (d : ℝ) (hn : lengthSq n = 1) :
    (isWalkable n up walkableAngle ↔ angleBetween up.val n < walkableAngle) ∧
    (angleBetween up.val n = walkableAngle →
      Ground.newIfWalkable entity n up walkableAngle = none) ∧
    (angleBetween n up.val = walkableAngle →
      Floor.newIfWalkable entity n d up walkableAngle =
        some ⟨entity, ⟨n, hn⟩, d⟩) := by
  refine ⟨Iff.rfl, ?_, ?_⟩
  · intro heq
    simp only [Ground.newIfWalkable, Dir3.new_unit hn]
    rw [if_pos]
    show ¬ angleBetween up.val n < walkableAngle
    rw [heq]
    exact lt_irrefl _
  · intro heq
    simp only [Floor.newIfWalkable, Dir3.new_unit hn]
    rw [if_neg]
    show ¬ angleBetween n up.val > walkableAngle
    rw [heq]
    exact lt_irrefl _

/-- C3 witness: the amended theorem at `up = Y`, normal `= X`,
`walkable_angle = π/2`. -/
theorem c3_witness :
    Ground.newIfWalkable 0 exV dirY (Real.pi / 2) = none ∧
    Floor.newIfWalkable 0 exV 0 dirY (Real.pi / 2) = some ⟨0, ⟨exV, exV_unit⟩, 0⟩ :=
  ⟨(c3_walkability_boundary exV dirY (Real.pi / 2) 0 0 exV_unit).2.1
      angleBetween_eyV_exV,
    (c3_walkability_boundary exV dirY (Real.pi / 2) 0 0 exV_unit).2.2
      angleBetween_exV_eyV⟩

/-! ## Claim C2 — `SlidePlanes` invariants -/

theorem insertPlane_snd (l : List Dir3) (n : Dir3) :
    (insertPlane l n).2 =
      if ∃ m ∈ l, dot m.val n.val > 1 - 1 / 100 then l else l ++ [n] := by
  rw [insertPlane]
  by_cases h : ∃ m ∈ l, dot m.val n.val > 1 - 1 / 100
  · rw [if_pos h, if_pos h]
  · rw [if_neg h, if_neg h]

/-- C2 counterexample.  Starting from the empty set, the four pairwise
non-similar unit normals `X`, `Y`, `Z`, `-X` are all accepted by `insert`:
the reachable set holds four normals, violating the claimed cap of three. -/
theorem c2_counterexample :
    ((insertPlane (insertPlane (insertPlane
        (insertPlane [] dirX).2 dirY).2 dirZ).2 (-dirX)).2).length = 4 := by
  have e1 : (insertPlane [] dirX).2 = [dirX] := by
    rw [insertPlane_snd, if_neg]
    · rfl
    · rintro ⟨m, hm, _⟩
      exact absurd hm (List.not_mem_nil m)
  have e2 : (insertPlane [dirX] dirY).2 = [dirX, dirY] := by
    rw [insertPlane_snd, if_neg]
    · rfl
    · rintro ⟨m, hm, hd⟩
      simp only [List.mem_singleton] at hm
      subst hm
      norm_num [dot, exV, eyV] at hd
  have e3 : (insertPlane [dirX, dirY] dirZ).2 = [dirX, dirY, dirZ] := by
    rw [insertPlane_snd, if_neg]
    · rfl
    · rintro ⟨m, hm, hd⟩
      simp only [List.mem_cons, List.mem_singleton, List.not_mem_nil, or_false] at hm
      rcases hm with h | h <;> subst h <;> norm_num [dot, exV, eyV, ezV] at hd
  have e4 : (insertPlane [dirX, dirY, dirZ] (-dirX)).2 = [dirX, dirY, dirZ, -dirX] := by
    rw [insertPlane_snd, if_neg]
    · rfl
    · rintro ⟨m, hm, hd⟩
      simp only [List.mem_cons, List.mem_singleton, List.not_mem_nil, or_false] at hm
      rcases hm with h | h | h <;> subst h <;>
        norm_num [dot, exV, eyV, ezV, Dir3.neg_val] at hd
  rw [e1, e2, e3, e4]
  rfl

/-- C2 (amended): every `SlidePlanes` value reachable from the empty set by
`insert` has pairwise non-similar normals (pairwise dot product at most
`1.0 - 0.01`, the code's insertion threshold), and `insert` returns `None` and
leaves the set unchanged when the candidate is similar to a stored normal;
however, the set is not capped at three normals — `insert` never limits the
length (`plane_type` simply classifies the last three as a corner). -/
theorem c2_planes_invariant (l : List Dir3) (hl : ReachablePlanes l) :
    List.Pairwise (fun a b : Dir3 => dot a.val b.val ≤ 1 - 1 / 100) l ∧
    ∀ n : Dir3, (∃ m ∈ l, dot m.val n.val > 1 - 1 / 100) →
      insertPlane l n = (none, l) := by
  constructor
  · induction hl with
    | nil => exact List.Pairwise.nil
    | @step l' n _ ih =>
      rw [insertPlane_snd]
      by_cases hsim : ∃ m ∈ l', dot m.val n.val > 1 - 1 / 100
      · rw [if_pos hsim]
        exact ih
      · rw [if_neg hsim]
        push_neg at hsim
        refine List.pairwise_append.mpr ⟨ih, List.pairwise_singleton _ _, ?_⟩
        intro a ha b hb
        rw [List.mem_singleton] at hb
        subst hb
        exact hsim a ha
  · intro n hn
    rw [insertPlane, if_pos hn]

/-- C2 witness: the singleton set reached by one `insert` is pairwise
non-similar, and re-inserting the same normal is rejected without change. -/
theorem c2_witness : insertPlane [dirX] dirX = (none, [dirX]) := by
  have h0 : (insertPlane [] dirX).2 = [dirX] := by
    rw [insertPlane_snd, if_neg]
    · rfl
    · rintro ⟨m, hm, _⟩
      exact absurd hm (List.not_mem_nil m)
  have hr : ReachablePlanes [dirX] :=
    h0 ▸ ReachablePlanes.step dirX ReachablePlanes.nil
  exact (c2_planes_invariant [dirX] hr).2 dirX
    ⟨dirX, List.mem_singleton.mpr rfl, by norm_num [dot, exV]⟩

/-! ## Claim C5 — the three-case projection rule -/

theorem Dir3.new_eq_some {v : Vec3} {d : Dir3} (h : Dir3.new v = some d) :
    d.val = normalize v := by
  rw [Dir3.new] at h
  by_cases h0 : v = 0
  · rw [dif_pos h0] at h
    exact absurd h (by simp)
  · rw [dif_neg h0] at h
    simp only [Option.some.injEq] at h
    rw [← h]

/-- C5: the solver's velocity projection obeys the three-case rule.  One
stored normal classifies as a plane and projection is the rejection from that
normal; two stored normals classify as a crease along
`normalize(n1 × n2)` and projection is the projection onto that crease
direction; three stored normals classify as a corner and projection is zero.
(The crease clause presupposes `n1 × n2` is non-degenerate, i.e. the two
stored normals are not parallel; on a degenerate cross product the source
panics in `Dir3::new(...).unwrap()`.) -/
theorem c5_projection_rule (n1 n2 n3 : Dir3) (v : Vec3) (c : Dir3)
    (hc : Dir3.new (cross n1.val n2.val) = some c) :
    (planeType [n1] = some (.plane n1) ∧
      PlaneType.projectMotion (.plane n1) v = v - dot v n1.val • n1.val) ∧
    (planeType [n1, n2] = some (.crease c n1 n2) ∧
      c.val = normalize (cross n1.val n2.val) ∧
      PlaneType.projectMotion (.crease c n1 n2) v = dot v c.val • c.val) ∧
    (planeType [n1, n2, n3] = some (.corner n1 n2 n3) ∧
      PlaneType.projectMotion (.corner n1 n2 n3) v = 0) := by
  refine ⟨⟨rfl, rfl⟩, ⟨?_, Dir3.new_eq_some hc, rfl⟩, ⟨rfl, rfl⟩⟩
  simp only [planeType, hc]

/-- C5 witness: with stored normals `X`, `Y`, `Z`, the corner case drives the
motion `(1, 2, 3)` to zero. -/
theorem c5_witness :
    PlaneType.projectMotion (.corner dirX dirY dirZ) ⟨1, 2, 3⟩ = 0 := by
  have hcross : cross dirX.val dirY.val = ezV := by
    ext <;> norm_num [cross, exV, eyV, ezV]
  have hc : Dir3.new (cross dirX.val dirY.val) = some dirZ := by
    rw [hcross, Dir3.new_unit ezV_unit]
    rfl
  exact (c5_projection_rule dirX dirY dirZ ⟨1, 2, 3⟩ dirZ hc).2.2.2

/-! ## Claims C10 and C4 — step climbing -/

theorem climbHorizontalMotion_zero : climbHorizontalMotion (0 : Vec3) = 0 := by
  ext <;> norm_num [climbHorizontalMotion, rejectFromNormalized, dot]

theorem climbHorizontalMotion_exV : climbHorizontalMotion exV = exV := by
  ext <;> norm_num [climbHorizontalMotion, rejectFromNormalized, dot, exV, eyV]

/-- With zero motion the forward probe is skipped and `try_climb_step` drops
straight down onto whatever the constant-world oracle reports. -/
theorem tryClimbStep_zero_motion (hit : ShapeHitData) (t : Vec3) (up : Dir3)
    (h ε : ℝ) :
    tryClimbStep (constCast hit) t 0 up h ε =
      some (t + h • up.val - (hit.distance - ε) • up.val, hit) := by
  simp only [tryClimbStep, climbHorizontalMotion_zero, Dir3.new_zero]
  simp only [tryClimbDown, Vec3.add_zero, sweepCheck, constCast]

/-- C10: `try_climb_step` derives the horizontal probe motion by rejecting the
motion from the fixed world Y axis, not from the supplied `up`.  The rejection
formula mentions no `up`; and observably, with `up = X` and motion along `X`
(so that rejection from `up` would be zero and would skip the forward probe),
the forward probe still fires and aborts against an everywhere-hitting world —
with the same outcome as for `up = Y`. -/
theorem c10_world_y_rejection :
    (∀ motion : Vec3, climbHorizontalMotion motion = motion - dot motion eyV • eyV) ∧
    rejectFromNormalized exV exV = 0 ∧
    tryClimbStep (constCast flatHit) 0 exV dirX 1 0 = none ∧
    tryClimbStep (constCast flatHit) 0 exV dirY 1 0 = none := by
  refine ⟨fun motion => rfl, ?_, ?_, ?_⟩
  · ext <;> norm_num [rejectFromNormalized, dot, exV]
  · simp only [tryClimbStep, climbHorizontalMotion_exV, Dir3.new_unit exV_unit,
      constCast]
  · simp only [tryClimbStep, climbHorizontalMotion_exV, Dir3.new_unit exV_unit,
      constCast]

/-- C4 counterexample.  `try_climb_step` itself performs no walkability check:
with zero motion and a world whose downward sweep reports a vertical-wall
normal (`+X`, not walkable for `up = Y` at the example walkable angle), it
still returns `Some` with that landing. -/
theorem c4_counterexample :
    tryClimbStep (constCast flatHit) 0 0 dirY 1 0 = some (⟨0, 4 / 5, 0⟩, flatHit) ∧
    ¬ isWalkable flatHit.normal1 dirY EXAMPLE_WALKABLE_ANGLE := by
  constructor
  · rw [tryClimbStep_zero_motion]
    congr 1
    refine Prod.ext ?_ rfl
    ext <;> norm_num [flatHit, eyV]
  · show ¬ angleBetween eyV exV < EXAMPLE_WALKABLE_ANGLE
    rw [angleBetween_eyV_exV, EXAMPLE_WALKABLE_ANGLE]
    intro hlt
    linarith [Real.pi_pos]

/-- C4 (amended): when the raised forward sweep hits anything,
`try_climb_step` returns `None`; but `try_climb_step` itself checks no
walkability — it returns whatever landing the downward sweep finds.  The
walkability filtering lives in its caller `try_step_up_on_hit`, which returns
`None` whenever the landing surface is not walkable against
`EXAMPLE_WALKABLE_ANGLE - 1e-4`. -/
theorem c4_step_climb :
    (∀ (cast : CastShape) (t motion : Vec3) (up : Dir3) (h ε : ℝ) (d : Dir3)
        (fh : ShapeHitData),
      Dir3.new (climbHorizontalMotion motion) = some d →
      cast (t + h • up.val) d
          { maxDistance := length (climbHorizontalMotion motion) } = some fh →
      tryClimbStep cast t motion up h ε = none) ∧
    (∀ (cast : CastShape) (t : Vec3) (up : Dir3) (hitNormal : Vec3) (dir : Dir3)
        (sf ε dt : ℝ) (st : Vec3) (hitd : ShapeHitData),
      tryClimbStep cast t (stepUpMotion hitNormal up dir sf ε) up
          (EXAMPLE_STEP_HEIGHT + EXAMPLE_GROUND_CHECK_DISTANCE) ε = some (st, hitd) →
      ¬ isWalkable hitd.normal1 up (EXAMPLE_WALKABLE_ANGLE - 1 / 10000) →
      tryStepUpOnHit cast t up hitNormal dir sf ε dt = none) := by
  constructor
  · intro cast t motion up h ε d fh hd hcast
    simp only [tryClimbStep, hd, hcast]
  · intro cast t up hitNormal dir sf ε dt st hitd hclimb hnw
    simp only [tryStepUpOnHit, hclimb]
    rw [if_pos hnw]

/-- C4 witness: both halves of the amended claim applied at concrete worlds —
a forward hit aborting the climb, and a non-walkable landing making
`try_step_up_on_hit` reject the step. -/
theorem c4_witness :
    tryClimbStep (constCast flatHit) 0 exV dirY 1 0 = none ∧
    tryStepUpOnHit (constCast flatHit) 0 dirY eyV dirX 0 0 1 = none := by
  have hr : rejectFromNormalized eyV eyV = 0 := by
    ext <;> norm_num [rejectFromNormalized, dot, eyV]
  have hinward : 0 ≤ stepUpInward 0 := by
    rw [stepUpInward, EXAMPLE_CHARACTER_RADIUS, EXAMPLE_WALKABLE_ANGLE]
    have h1 : Real.cos (Real.pi / 4) ≤ 1 := Real.cos_le_one _
    nlinarith
  have hsm : stepUpMotion eyV dirY dirX 0 0 = 0 := by
    rw [stepUpMotion, dirY_val, hr, normalizeOrZero, if_pos rfl, Vec3.smul_zero,
      stepUpForward, max_eq_right (by linarith : (0 : ℝ) - stepUpInward 0 ≤ 0),
      Vec3.zero_smul]
    ext <;> simp
  constructor
  · exact c4_step_climb.1 (constCast flatHit) 0 exV dirY 1 0 dirX flatHit
      (by rw [climbHorizontalMotion_exV]; exact Dir3.new_unit exV_unit) rfl
  · refine c4_step_climb.2 (constCast flatHit) 0 dirY eyV dirX 0 0 1
      ⟨0, 3 / 20, 0⟩ flatHit ?_ ?_
    · rw [hsm, tryClimbStep_zero_motion]
      congr 1
      refine Prod.ext ?_ rfl
      ext <;> norm_num [flatHit, eyV, EXAMPLE_STEP_HEIGHT, EXAMPLE_GROUND_CHECK_DISTANCE]
    · show ¬ angleBetween eyV exV < EXAMPLE_WALKABLE_ANGLE - 1 / 10000
      rw [angleBetween_eyV_exV, EXAMPLE_WALKABLE_ANGLE]
      intro hlt
      linarith [Real.pi_pos]

/-! ## Claims C8, C7, C6 — the `move_and_slide` loop -/

theorem Vec3.sub_self (a : Vec3) : a - a = 0 := by ext <;> simp

theorem Vec3.add_sub_cancel_left (a b : Vec3) : a + b - a = b := by
  ext <;> simp

theorem Vec3.smul_ne_zero {c : ℝ} {v : Vec3} (hc : c ≠ 0) (hv : v ≠ 0) :
    c • v ≠ 0 := by
  intro h
  apply hv
  have hx := congrArg Vec3.x h
  have hy := congrArg Vec3.y h
  have hz := congrArg Vec3.z h
  simp only [Vec3.smul_x, Vec3.smul_y, Vec3.smul_z, Vec3.zero_x, Vec3.zero_y,
    Vec3.zero_z] at hx hy hz
  ext
  · exact (mul_eq_zero.mp hx).resolve_left hc
  · exact (mul_eq_zero.mp hy).resolve_left hc
  · exact (mul_eq_zero.mp hz).resolve_left hc

/-- A substep with degenerate motion (`velocity * remaining_time` zero) just
breaks out of the loop. -/
theorem substep_degenerate (cast : CastShape) (onHit : Slide → SlideResult)
    (config : MoveAndSlideConfig) (od : Dir3) (s : MSState)
    (hw : s.remainingTime • s.velocity = 0) :
    substep cast onHit config od s = .stop s := by
  simp only [substep, hw, Dir3.newAndLength_zero]

/-- A substep in a world where every cast misses consumes the full remaining
motion and breaks. -/
theorem substep_no_hit (cast : CastShape) (onHit : Slide → SlideResult)
    (config : MoveAndSlideConfig) (od : Dir3) (s : MSState)
    (hcast : ∀ o d c, cast o d c = none)
    (hw : s.remainingTime • s.velocity ≠ 0) :
    substep cast onHit config od s =
      .stop { s with translation := s.translation + s.remainingTime • s.velocity } := by
  simp only [substep, Dir3.newAndLength, dif_neg hw, sweepCheck, hcast]
  rw [length_smul_normalize hw]

/-- C8: `move_and_slide` with zero velocity is a no-op for every geometry and
configuration — it returns the input translation and velocity with zero
applied motion — and iterating the resolve any number of ticks produces no
translation drift. -/
theorem c8_zero_velocity_noop (cast : CastShape) (onHit : Slide → SlideResult)
    (origin : Vec3) (config : MoveAndSlideConfig) (dt : ℝ) :
    moveAndSlide cast onHit origin 0 config dt =
      some { translation := origin, velocity := 0, remainingTime := dt,
             plane := none, appliedMotion := 0 } ∧
    ∀ k : Nat,
      (fun t => match moveAndSlide cast onHit t 0 config dt with
        | some r => r.translation
        | none => t)^[k] origin = origin := by
  have h1 : ∀ t : Vec3, moveAndSlide cast onHit t 0 config dt =
      some { translation := t, velocity := 0, remainingTime := dt,
             plane := none, appliedMotion := 0 } := by
    intro t
    simp only [moveAndSlide, Dir3.new_zero]
  refine ⟨h1 origin, ?_⟩
  intro k
  induction k with
  | zero => rfl
  | succ m ih =>
    rw [Function.iterate_succ_apply]
    simp only [h1 origin]
    exact ih

/-- C7: for a nonzero velocity, when every sweep during the resolve misses
(empty space), `move_and_slide` advances the translation by exactly
`velocity * delta_time` and leaves the velocity unchanged (stated for any
configuration that performs at least one substep). -/
theorem c7_empty_space (cast : CastShape) (onHit : Slide → SlideResult)
    (origin v : Vec3) (config : MoveAndSlideConfig) (dt : ℝ)
    (hv : v ≠ 0) (hcast : ∀ o d c, cast o d c = none)
    (hsub : 1 ≤ config.maxSubsteps) :
    moveAndSlide cast onHit origin v config dt =
      some { translation := origin + dt • v, velocity := v, remainingTime := dt,
             plane := none, appliedMotion := dt • v } := by
  obtain ⟨n, hn⟩ : ∃ n, config.maxSubsteps = n + 1 :=
    ⟨config.maxSubsteps - 1, (Nat.succ_pred_eq_of_pos hsub).symm⟩
  have hod : Dir3.new v = some ⟨normalize v, lengthSq_normalize hv⟩ := by
    rw [Dir3.new, dif_neg hv]
  simp only [moveAndSlide, hod, hn]
  by_cases hdt : dt = 0
  · subst hdt
    rw [moveLoop, substep_degenerate cast onHit config _ _ (Vec3.zero_smul v)]
    simp only [Vec3.zero_smul, Vec3.add_zero, Vec3.sub_self, planeType]
  · have hw : dt • v ≠ 0 := Vec3.smul_ne_zero hdt hv
    rw [moveLoop, substep_no_hit cast onHit config _ _ hcast hw]
    simp only [Vec3.add_sub_cancel_left, planeType]

/-- C7 witness: a concrete resolve through empty space. -/
theorem c7_witness :
    moveAndSlide constCastNone (fun _ => ⟨0, 0, 0⟩) 0 exV ⟨4, 1 / 100⟩ 2 =
      some { translation := 0 + (2 : ℝ) • exV, velocity := exV, remainingTime := 2,
             plane := none, appliedMotion := (2 : ℝ) • exV } :=
  c7_empty_space constCastNone (fun _ => ⟨0, 0, 0⟩) 0 exV ⟨4, 1 / 100⟩ 2
    exV_ne_zero (fun _ _ _ => rfl) (by norm_num)

/-- A fixture wall hit at distance `1/5` with normal `-X`, facing a mover
travelling along `+X`. -/
def wallHit : ShapeHitData := ⟨1 / 5, -exV, 0⟩

theorem negExV_unit : lengthSq (-exV) = 1 := by
  rw [lengthSq_neg]
  exact exV_unit

/-- C6: during one `move_and_slide` call, whenever the velocity produced by
the callback after processing a hit has non-positive dot product with the
original pre-resolve direction, the loop stops immediately: the result is the
post-hit state no matter how many substeps of budget remain. -/
theorem c6_stop_on_reversed_velocity
    (cast : CastShape) (onHit : Slide → SlideResult) (config : MoveAndSlideConfig)
    (od : Dir3) (s : MSState) (dirm : Dir3) (maxd safe : ℝ) (hit : ShapeHitData)
    (nd : Dir3) (plane : PlaneType) (planes' : List Dir3) (r : SlideResult)
    (h1 : Dir3.newAndLength (s.remainingTime • s.velocity) = some (dirm, maxd))
    (h2 : sweepCheck cast config.epsilon s.translation dirm maxd = some (safe, hit))
    (h3 : Dir3.new hit.normal1 = some nd)
    (h4 : insertPlane s.planes nd = (some plane, planes'))
    (hr : onHit { hit := hit, plane := plane,
                  translation := s.translation + safe • dirm.val,
                  velocity := s.velocity, direction := dirm,
                  incomingMotion := safe, remainingMotion := maxd - safe } = r)
    (h5 : dot r.velocity od.val ≤ 0) :
    ∀ n : Nat, moveLoop cast onHit config od (n + 1) s =
      some { translation := r.translation, velocity := r.velocity,
             remainingTime :=
               max (s.remainingTime * (1 - safe / maxd) - r.elapsedTime) 0,
             planes := planes' } := by
  intro n
  have hstep : substep cast onHit config od s = .stop
      { translation := r.translation, velocity := r.velocity,
        remainingTime :=
          max (s.remainingTime * (1 - safe / maxd) - r.elapsedTime) 0,
        planes := planes' } := by
    simp only [substep, h1, h2, h3, h4, hr]
    rw [if_pos h5]
  simp only [moveLoop, hstep]

/-- C6 witness: a mover along `+X` hits a wall with normal `-X`; the callback
reverses the velocity to `-X`, whose dot with the original direction is
negative, and the loop stops with the callback's state. -/
theorem c6_witness :
    moveLoop (constCast wallHit) (fun _ => ⟨0, -exV, 0⟩) ⟨4, 0⟩ dirX 1
        ⟨0, exV, 1, []⟩ =
      some ⟨0, -exV, max (1 * (1 - 1 / 5 / 1) - 0) 0, [-dirX]⟩ :=
  c6_stop_on_reversed_velocity (constCast wallHit) (fun _ => ⟨0, -exV, 0⟩) ⟨4, 0⟩
    dirX ⟨0, exV, 1, []⟩ dirX 1 (1 / 5) wallHit (-dirX) (.plane (-dirX)) [-dirX]
    ⟨0, -exV, 0⟩
    (Dir3.newAndLength_smul_unit zero_lt_one exV_unit)
    (by simp [sweepCheck, constCast, wallHit])
    (Dir3.new_unit negExV_unit)
    (by
      rw [insertPlane, if_neg]
      · rfl
      · rintro ⟨m, hm, _⟩
        exact absurd hm (List.not_mem_nil m))
    rfl
    (by norm_num [dot, exV])
    0

end KCC
